import Mathlib

/-!
# Verification of the hoprnet RPC client and protocol pipeline cores

Shallow embedding of `chain/rpc/src/client.rs` (retry policy, JSON-RPC
client retry loop, snapshot requestor) and of the MsgIn task of
`transport/protocol/src/lib.rs`, with theorems settling the frozen claims.

Modelling conventions:
* Rust `u32` values are `Nat`; wrapping `u32` arithmetic is explicit
  (`% 2^32`) where the source can overflow.
* `std::time::Duration` and `f64` backoff arithmetic are modelled over `ℚ`
  (the claims under study depend only on ordering and on the `min` cap,
  not on floating-point rounding).
* `serde_json::from_str::<Resp>` used inside the retry policy is an
  external parser; it is passed as an explicit function argument
  `parse : String → Option JsonRpcError` returning the extracted
  `error` field on success.
* Async effects (HTTP calls, channel sends) are modelled by explicit
  state passing / effect lists.
-/

/-- JSON-RPC error object (`ethers::providers::JsonRpcError`): only the
`code` and `message` fields are consulted by the policy. -/
structure JsonRpcError where
  code : Int
  message : String
deriving DecidableEq, Repr

/-- `HttpRequestError` taxonomy from `chain/rpc/src/errors.rs` as used by
`client.rs`; HTTP status codes are modelled as `Nat`. -/
inductive HttpRequestError where
  | HttpError (status : Nat)
  | Timeout
  | TransportError (s : String)
  | UnknownError (s : String)
deriving DecidableEq, Repr

/-- `JsonRpcProviderClientError`: the error type classified by the retry
policy. The opaque `err` field of `SerdeJson` is dropped; only `text`
is consulted by the policy. -/
inductive JsonRpcProviderClientError where
  | jsonRpcError (e : JsonRpcError)
  | BackendError (e : HttpRequestError)
  | SerdeJson (text : String)
deriving DecidableEq, Repr

/-- `RetryAction` returned by a retry policy; the delay is a duration in
(rational) seconds. -/
inductive RetryAction where
  | NoRetry
  | RetryAfter (d : ℚ)
deriving DecidableEq, Repr

/-- `SimpleJsonRpcRetryPolicy` configuration struct (durations in rational
seconds, HTTP status codes as `Nat`). -/
structure SimpleJsonRpcRetryPolicy where
  min_retries : Option Nat
  max_retries : Option Nat
  initial_backoff : ℚ
  backoff_coefficient : ℚ
  max_backoff : ℚ
  backoff_on_transport_errors : Bool
  retryable_json_rpc_errors : List Int
  retryable_http_errors : List Nat
  max_retry_queue_size : Nat
deriving DecidableEq, Repr

/-- Checks whether the list `n` of characters occurs at the start of `l`
(used to model Rust `str::contains`). -/
def startsWithChars : List Char → List Char → Bool
  | [], _ => true
  | _ :: _, [] => false
  | a :: n, b :: l => a == b && startsWithChars n l

/-- Checks whether `n` occurs as a contiguous sublist of `l`. -/
def containsChars (l n : List Char) : Bool :=
  match l with
  | [] => n.isEmpty
  | _ :: t => startsWithChars n l || containsChars t n

/-- Rust `str::contains(needle)`: substring containment. -/
def strContains (hay needle : String) : Bool :=
  containsChars hay.data needle.data

/-- `SimpleJsonRpcRetryPolicy::is_retryable_json_rpc_error`: the error code
is listed, or the message contains the substring "rate limit". -/
def SimpleJsonRpcRetryPolicy.is_retryable_json_rpc_error
    (p : SimpleJsonRpcRetryPolicy) (e : JsonRpcError) : Bool :=
  p.retryable_json_rpc_errors.contains e.code || strContains e.message "rate limit"

/-- `SimpleJsonRpcRetryPolicy::is_retryable_http_error`. -/
def SimpleJsonRpcRetryPolicy.is_retryable_http_error
    (p : SimpleJsonRpcRetryPolicy) (status : Nat) : Bool :=
  p.retryable_http_errors.contains status

/-- Wrapping `u32` subtraction `a - b` (operands reduced mod `2^32`). -/
def u32WrappingSub (a b : Nat) : Nat :=
  (a % 2 ^ 32 + (2 ^ 32 - b % 2 ^ 32)) % 2 ^ 32

/-- Whether the `u32` subtraction `a - b` underflows (a panic in debug
builds in Rust). -/
def u32SubUnderflows (a b : Nat) : Bool :=
  decide (a % 2 ^ 32 < b % 2 ^ 32)

/-- Reinterpretation of a `u32` bit pattern as an `i32` (the `as i32` cast). -/
def i32OfU32 (n : Nat) : Int :=
  if n < 2 ^ 31 then (n : Int) else (n : Int) - 2 ^ 32

/-- The exponent `(num_retries - 1) as i32` computed in
`is_retryable_error`: a `u32` subtraction followed by an `i32` cast. -/
def backoffExponent (num_retries : Nat) : Int :=
  i32OfU32 (u32WrappingSub num_retries 1)

/-- `Duration::min` on durations-as-rationals. -/
def ratMin (a b : ℚ) : ℚ := if a ≤ b then a else b

/-- Power with a natural exponent by repeated multiplication. -/
def ratNatPow (x : ℚ) : Nat → ℚ
  | 0 => 1
  | n + 1 => ratNatPow x n * x

/-- `f64::powi`: power with an `i32` exponent (negative exponents invert). -/
def ratPowi (x : ℚ) : Int → ℚ
  | Int.ofNat n => ratNatPow x n
  | Int.negSucc n => (ratNatPow x (n + 1))⁻¹

/-- The backoff computed by `is_retryable_error`:
`initial_backoff * (1 + backoff_coefficient)^((num_retries - 1) as i32)`,
capped by `max_backoff`. -/
def backoffOf (p : SimpleJsonRpcRetryPolicy) (num_retries : Nat) : ℚ :=
  ratMin (p.initial_backoff * ratPowi (1 + p.backoff_coefficient) (backoffExponent num_retries))
    p.max_backoff

/-- `SimpleJsonRpcRetryPolicy::is_retryable_error` from
`chain/rpc/src/client.rs` lines 163-252. `parse` stands for
`serde_json::from_str::<Resp>` extracting the `error` field of `text`. -/
def SimpleJsonRpcRetryPolicy.is_retryable_error
    (parse : String → Option JsonRpcError) (p : SimpleJsonRpcRetryPolicy)
    (err : JsonRpcProviderClientError) (num_retries retry_queue_size : Nat) :
    RetryAction :=
  if (match p.max_retries with
      | some max => decide (max < num_retries)
      | none => false) then
    RetryAction.NoRetry
  else if p.max_retry_queue_size < retry_queue_size then
    RetryAction.NoRetry
  else
    let backoff := backoffOf p num_retries
    if (match p.min_retries with
        | some mn => decide (num_retries ≤ mn)
        | none => false) then
      RetryAction.RetryAfter backoff
    else
      match err with
      | JsonRpcProviderClientError.jsonRpcError e =>
          if p.is_retryable_json_rpc_error e then RetryAction.RetryAfter backoff
          else RetryAction.NoRetry
      | JsonRpcProviderClientError.BackendError (HttpRequestError.HttpError s) =>
          if p.is_retryable_http_error s then RetryAction.RetryAfter backoff
          else RetryAction.NoRetry
      | JsonRpcProviderClientError.BackendError HttpRequestError.Timeout =>
          RetryAction.RetryAfter
            (if p.backoff_on_transport_errors then backoff else p.initial_backoff)
      | JsonRpcProviderClientError.BackendError (HttpRequestError.TransportError _) =>
          RetryAction.RetryAfter
            (if p.backoff_on_transport_errors then backoff else p.initial_backoff)
      | JsonRpcProviderClientError.BackendError (HttpRequestError.UnknownError _) =>
          RetryAction.RetryAfter
            (if p.backoff_on_transport_errors then backoff else p.initial_backoff)
      | JsonRpcProviderClientError.SerdeJson text =>
          match parse text with
          | some error =>
              if p.is_retryable_json_rpc_error error then RetryAction.RetryAfter backoff
              else RetryAction.NoRetry
          | none => RetryAction.NoRetry

/-! ## JsonRpcProviderClient::request retry loop (client.rs lines 384-467)

The loop is modelled by explicit state passing: `outcomes` is the sequence
of results produced by successive `send_request_internal` attempts, and the
`requests_enqueued` counter is threaded through. A retry policy is an
abstract function of the error, the number of retries and the current
queue size, exactly the data the source passes to `is_retryable_error`. -/

/-- Result of one `send_request_internal` attempt. -/
inductive AttemptOutcome (α ε : Type) where
  | ok (a : α)
  | fail (e : ε)

/-- The body of the retry loop: `nr` is the local `num_retries` (0 before
the first attempt), `c` the current `requests_enqueued` value (already
incremented on entry). Returns `none` when the supplied attempt sequence
is exhausted with the loop still running, otherwise the final result and
the final `requests_enqueued` value. On success or `NoRetry` the counter
is decremented (`fetch_sub`); on `RetryAfter` the loop sleeps and
continues. -/
def requestLoop (policy : ε → Nat → Nat → RetryAction) :
    List (AttemptOutcome α ε) → Nat → Nat → Option (Except ε α × Nat)
  | [], _, _ => none
  | AttemptOutcome.ok a :: _, _, c => some (Except.ok a, c - 1)
  | AttemptOutcome.fail e :: rest, nr, c =>
      match policy e (nr + 1) c with
      | RetryAction.NoRetry => some (Except.error e, c - 1)
      | RetryAction.RetryAfter _ => requestLoop policy rest (nr + 1) c

/-- `JsonRpcProviderClient::request`: increments `requests_enqueued`
(`fetch_add` on entry), then runs the retry loop with `num_retries = 0`.
`c0` is the counter value prior to the call. -/
def clientRequest (policy : ε → Nat → Nat → RetryAction)
    (outcomes : List (AttemptOutcome α ε)) (c0 : Nat) :
    Option (Except ε α × Nat) :=
  requestLoop policy outcomes 0 (c0 + 1)

/-- The list of `num_retries` values passed to the retry policy during the
loop (one entry per consultation, in order). -/
def requestLoopCalls (policy : ε → Nat → Nat → RetryAction) :
    List (AttemptOutcome α ε) → Nat → Nat → List Nat
  | [], _, _ => []
  | AttemptOutcome.ok _ :: _, _, _ => []
  | AttemptOutcome.fail e :: rest, nr, c =>
      (nr + 1) ::
        (match policy e (nr + 1) c with
         | RetryAction.NoRetry => []
         | RetryAction.RetryAfter _ => requestLoopCalls policy rest (nr + 1) c)

/-- The `num_retries` values passed to the policy by a full
`JsonRpcProviderClient::request` call. -/
def clientRequestCalls (policy : ε → Nat → Nat → RetryAction)
    (outcomes : List (AttemptOutcome α ε)) (c0 : Nat) : List Nat :=
  requestLoopCalls policy outcomes 0 (c0 + 1)

/-! ## SnapshotRequestor (client.rs lines 648-876)

The moka cache is modelled as an association list keyed by the serialized
request string; file contents are modelled as the parsed
`Vec<RequestorResponseSnapshot>` (the YAML layer is assumed faithful:
`serde_yaml` round-trips the entry list). -/

/-- `RequestorResponseSnapshot`: one cached request/response pair. -/
structure RequestorResponseSnapshot where
  id : Nat
  request : String
  response : String
deriving DecidableEq, Repr

/-- In-memory state of a `SnapshotRequestor` (the inner transport and the
file path are kept outside the state). -/
structure SnapshotState where
  next_id : Nat
  entries : List (String × RequestorResponseSnapshot)
  fail_on_miss : Bool
  aggressive_save : Bool
  ignore_snapshot : Bool
deriving DecidableEq, Repr

/-- Cache lookup by request key (first match; keys are kept unique). -/
def lookupEntry (k : String) :
    List (String × RequestorResponseSnapshot) → Option RequestorResponseSnapshot
  | [] => none
  | (k', v) :: m => if k = k' then some v else lookupEntry k m

/-- Cache insert: replaces any existing entry with the same key
(moka `Cache::insert` / `entry().or_try_insert_with` on a miss). -/
def insertEntry (k : String) (v : RequestorResponseSnapshot)
    (m : List (String × RequestorResponseSnapshot)) :
    List (String × RequestorResponseSnapshot) :=
  (k, v) :: m.filter fun p => p.1 ≠ k

/-- `SnapshotRequestor::new`: empty cache, `next_id = 1`, all flags off. -/
def initialState : SnapshotState :=
  { next_id := 1, entries := [], fail_on_miss := false,
    aggressive_save := false, ignore_snapshot := false }

/-- `SnapshotRequestor::clear`: drops all entries and stores 1 into
`next_id`; flags and file untouched. -/
def SnapshotState.clear (st : SnapshotState) : SnapshotState :=
  { st with entries := [], next_id := 1 }

/-- The loading fold of `try_load`: for each loaded entry, executes
`next_id.fetch_max(entry.id)` and inserts the entry keyed by its
`request` field. -/
def foldLoad (l : List RequestorResponseSnapshot) (st : SnapshotState) :
    SnapshotState :=
  l.foldl
    (fun s e =>
      { s with next_id := max s.next_id e.id,
               entries := insertEntry e.request e s.entries })
    st

/-- `SnapshotRequestor::try_load(fail_on_miss)`: `parsed` is the result of
opening and YAML-parsing the snapshot file (`none` models an I/O or parse
error, which propagates). On success the cache is cleared, repopulated,
and `fail_on_miss` is adopted only when at least one entry was loaded. -/
def SnapshotState.try_load (st : SnapshotState)
    (parsed : Option (List RequestorResponseSnapshot)) (fail_on_miss : Bool) :
    Option SnapshotState :=
  if st.ignore_snapshot then some st
  else
    match parsed with
    | none => none
    | some loaded =>
        let st2 := foldLoad loaded st.clear
        if 0 < loaded.length then some { st2 with fail_on_miss := fail_on_miss }
        else some st2

/-- Insertion into a list sorted by ascending `id`. -/
def insertById (e : RequestorResponseSnapshot) :
    List RequestorResponseSnapshot → List RequestorResponseSnapshot
  | [] => [e]
  | x :: xs => if e.id ≤ x.id then e :: x :: xs else x :: insertById e xs

/-- Sorting the cached values by ascending `id`
(`values.sort_unstable_by_key(|a| a.id)` in `save`). -/
def sortById (l : List RequestorResponseSnapshot) :
    List RequestorResponseSnapshot :=
  l.foldr insertById []

/-- The file contents written by `SnapshotRequestor::save`: the cached
values sorted by `id`. -/
def saveContents (st : SnapshotState) : List RequestorResponseSnapshot :=
  sortById (st.entries.map Prod.snd)

/-- `SnapshotRequestor::save`: `none` when `ignore_snapshot` is set (no
write happens), otherwise the serialized entry list. -/
def SnapshotState.save (st : SnapshotState) :
    Option (List RequestorResponseSnapshot) :=
  if st.ignore_snapshot then none else some (saveContents st)

/-- `SnapshotRequestor::http_post_with_snapshot` (client.rs lines
784-825). `inner` is the inner transport's `http_post` keyed by url and
serialized body (responses are modelled as the UTF-8 strings stored in
the snapshot). `request` is the serialized body (`serde_json::to_string`
of the data). Returns the result, the new state and whether the inner
transport was invoked. -/
def http_post_with_snapshot (st : SnapshotState)
    (inner : String → String → Except HttpRequestError String)
    (url request : String) :
    Except HttpRequestError String × SnapshotState × Bool :=
  match lookupEntry request st.entries with
  | some e => (Except.ok e.response, st, false)
  | none =>
      if st.fail_on_miss then
        (Except.error (HttpRequestError.HttpError 404), st, false)
      else
        match inner url request with
        | Except.error e => (Except.error e, st, true)
        | Except.ok response =>
            let id := st.next_id
            (Except.ok response,
             { st with next_id := st.next_id + 1,
                       entries := insertEntry request
                         ⟨id, request, response⟩ st.entries },
             true)

/-- Outcome of calling a Rust function that may `panic!` (`todo!()`):
either a value is returned or the call panics. -/
inductive PanicOr (α : Type) where
  | panics
  | value (a : α)
deriving DecidableEq, Repr

/-- `<SnapshotRequestor as HttpRequestor>::http_query` (client.rs lines
838-843): the body is `todo!()`, which panics unconditionally. -/
def snapshotHttpQuery (_method _url : String) (_data : Option String) :
    PanicOr (Except HttpRequestError String) :=
  PanicOr.panics

/-- `<SnapshotRequestor as HttpRequestor>::http_get` (client.rs lines
852-854): the body is `todo!()`, which panics unconditionally. -/
def snapshotHttpGet (_url : String) :
    PanicOr (Except HttpRequestError String) :=
  PanicOr.panics

/-- `<SnapshotRequestor as HttpRequestor>::http_post` (client.rs lines
845-850): delegates to `http_post_with_snapshot` and returns. -/
def snapshotHttpPost (st : SnapshotState)
    (inner : String → String → Except HttpRequestError String)
    (url request : String) :
    PanicOr (Except HttpRequestError String × SnapshotState × Bool) :=
  PanicOr.value (http_post_with_snapshot st inner url request)

/-! ## MsgIn task of run_msg_ack_protocol (transport/protocol lib.rs 299-378)

The handler for one `(peer, data)` item, after `msg_processor.recv` has
produced its result. Effects on the three output channels (internal ack
channel, `wire_msg` sink, `api` sink) are collected into lists. Types are
abstract: `κ` keypairs, `π` peer ids, `α` acknowledgements, `β` wire
bytes, `δ` application data, `ε` packet errors. -/

/-- The `ack` payload of a `RecvOperation`: destination peer and
acknowledgement. -/
structure AckToSend (π α : Type) where
  peer : π
  ack : α

/-- The `msg` payload of `RecvOperation::Forward`: next hop and data. -/
structure MsgToSend (π β : Type) where
  peer : π
  data : β

/-- `msg::processor::RecvOperation`. -/
inductive RecvOperation (δ π α β : Type) where
  | Receive (data : δ) (ack : AckToSend π α)
  | Forward (msg : MsgToSend π β) (ack : AckToSend π α)

/-- Effects of handling one MsgIn item: acks enqueued onto the internal
ack channel, packets sent to the `wire_msg` sink, and data passed to the
`api` sink (the value kept by the `filter_map` and forwarded). -/
structure MsgInEffects (δ π α β : Type) where
  acks : List (π × α)
  wireOut : List (π × β)
  apiOut : List δ

/-- The MsgIn `filter_map` closure (lib.rs lines 309-373): `randomAck`
models `Acknowledgement::random(&me)`, `me` the local packet keypair,
`peer` the sending peer of the item, `res` the result of
`msg_processor.recv(&peer, data)` (errors are tagged with the sending
peer by the source's `map_err`). -/
def handleMsgIn (randomAck : κ → α) (me : κ) (peer : π)
    (res : Except ε (RecvOperation δ π α β)) : MsgInEffects δ π α β :=
  match res with
  | Except.ok (RecvOperation.Receive data ack) =>
      { acks := [(ack.peer, ack.ack)], wireOut := [], apiOut := [data] }
  | Except.ok (RecvOperation.Forward msg ack) =>
      { acks := [(ack.peer, ack.ack)], wireOut := [(msg.peer, msg.data)],
        apiOut := [] }
  | Except.error _ =>
      { acks := [(peer, randomAck me)], wireOut := [], apiOut := [] }

/-- Repeated cache insertion of loaded entries, keyed by their `request`
field (the entries component of the `try_load` fold). -/
def insertAll (l : List RequestorResponseSnapshot)
    (m : List (String × RequestorResponseSnapshot)) :
    List (String × RequestorResponseSnapshot) :=
  l.foldl (fun m e => insertEntry e.request e m) m

/-- First entry of the list whose `request` field equals `k`. -/
def findByReq (k : String) :
    List RequestorResponseSnapshot → Option RequestorResponseSnapshot
  | [] => none
  | e :: t => if e.request = k then some e else findByReq k t

/-- The `request` keys of a list of snapshot entries. -/
def requestsOf (l : List RequestorResponseSnapshot) : List String :=
  l.map fun e => e.request

/-- Well-formedness of the cache: keys are pairwise distinct, and every
entry is keyed by its own `request` field (both are maintained by all
cache insertions in the source). -/
def WFentries (m : List (String × RequestorResponseSnapshot)) : Prop :=
  (m.map Prod.fst).Nodup ∧ ∀ p ∈ m, p.2.request = p.1

instance (m : List (String × RequestorResponseSnapshot)) :
    Decidable (WFentries m) := by
  unfold WFentries; infer_instance

/-- The `SmartDefault` configuration of `SimpleJsonRpcRetryPolicy`
(client.rs lines 86-151). -/
def defaultPolicy : SimpleJsonRpcRetryPolicy :=
  { min_retries := some 0, max_retries := some 12, initial_backoff := 1,
    backoff_coefficient := 3 / 10, max_backoff := 30,
    backoff_on_transport_errors := false,
    retryable_json_rpc_errors := [-32005, -32016, 429],
    retryable_http_errors := [429, 504, 503],
    max_retry_queue_size := 100 }

/-! ## Theorems -/

theorem ratMin_le_right (a b : ℚ) : ratMin a b ≤ b := by
  unfold ratMin
  split
  · assumption
  · exact le_refl b

theorem backoffOf_le_max (p : SimpleJsonRpcRetryPolicy) (nr : Nat) :
    backoffOf p nr ≤ p.max_backoff :=
  ratMin_le_right _ _

/-- Claim C2: `is_retryable_error` returns `NoRetry` whenever `max_retries`
is set and `num_retries > max_retries`, and returns `NoRetry` whenever
`retry_queue_size > max_retry_queue_size`; both caps hold for every error
and regardless of `min_retries` and the per-error classification, and with
`max_retries = Some(0)` the first failure (`num_retries ≥ 1`) is
terminal. -/
theorem claim_C2 (parse : String → Option JsonRpcError)
    (p : SimpleJsonRpcRetryPolicy) (err : JsonRpcProviderClientError)
    (nr qs : Nat) :
    (∀ mx, p.max_retries = some mx → mx < nr →
        SimpleJsonRpcRetryPolicy.is_retryable_error parse p err nr qs
          = RetryAction.NoRetry)
    ∧ (p.max_retry_queue_size < qs →
        SimpleJsonRpcRetryPolicy.is_retryable_error parse p err nr qs
          = RetryAction.NoRetry)
    ∧ (p.max_retries = some 0 → 1 ≤ nr →
        SimpleJsonRpcRetryPolicy.is_retryable_error parse p err nr qs
          = RetryAction.NoRetry) := by
  refine ⟨?_, ?_, ?_⟩
  · intro mx hmx hlt
    unfold SimpleJsonRpcRetryPolicy.is_retryable_error
    rw [hmx]
    simp [hlt]
  · intro hq
    unfold SimpleJsonRpcRetryPolicy.is_retryable_error
    split
    · rfl
    · simp [hq]
  · intro h0 h1
    unfold SimpleJsonRpcRetryPolicy.is_retryable_error
    rw [h0]
    simp [Nat.lt_of_lt_of_le Nat.zero_lt_one h1]

theorem claim_C2_witness :
    defaultPolicy.max_retries = some 12 ∧ (12 : Nat) < 13
    ∧ SimpleJsonRpcRetryPolicy.is_retryable_error (fun _ => none) defaultPolicy
        (JsonRpcProviderClientError.BackendError HttpRequestError.Timeout) 13 0
        = RetryAction.NoRetry :=
  ⟨rfl, by decide,
    (claim_C2 (fun _ => none) defaultPolicy
        (JsonRpcProviderClientError.BackendError HttpRequestError.Timeout)
        13 0).1 12 rfl (by decide)⟩

/-- Claim C3 (counterexample): the claim "every delay in a `RetryAfter`
satisfies `d ≤ max_backoff`" fails on the transport-error path with
`backoff_on_transport_errors = false`, where the policy returns
`initial_backoff` uncapped: with `initial_backoff = 2` and
`max_backoff = 1`, a timeout at `num_retries = 1` yields
`RetryAfter 2` with `2 > max_backoff`. -/
theorem claim_C3_counterexample :
    SimpleJsonRpcRetryPolicy.is_retryable_error (fun _ => none)
        { defaultPolicy with initial_backoff := 2, max_backoff := 1 }
        (JsonRpcProviderClientError.BackendError HttpRequestError.Timeout) 1 0
      = RetryAction.RetryAfter 2
    ∧ ¬((2 : ℚ) ≤
        ({ defaultPolicy with initial_backoff := 2, max_backoff := 1 }
          : SimpleJsonRpcRetryPolicy).max_backoff) := by
  constructor
  · with_unfolding_all decide
  · with_unfolding_all decide

/-- Claim C3 (amended): every delay `d` in a `RetryAfter(d)` returned by
`is_retryable_error` either equals the computed backoff
`min(initial_backoff * (1 + backoff_coefficient)^(num_retries - 1), max_backoff)`
— in which case `d ≤ max_backoff` — or is returned on the
`BackendError(Timeout | TransportError | UnknownError)` path with
`backoff_on_transport_errors = false`, where `d = initial_backoff`
(which may exceed `max_backoff`). -/
theorem claim_C3 (parse : String → Option JsonRpcError)
    (p : SimpleJsonRpcRetryPolicy) (err : JsonRpcProviderClientError)
    (nr qs : Nat) (d : ℚ)
    (h : SimpleJsonRpcRetryPolicy.is_retryable_error parse p err nr qs
      = RetryAction.RetryAfter d) :
    (d = backoffOf p nr ∧ d ≤ p.max_backoff)
    ∨ (p.backoff_on_transport_errors = false ∧ d = p.initial_backoff) := by
  have hb : backoffOf p nr ≤ p.max_backoff := backoffOf_le_max p nr
  cases err with
  | jsonRpcError e =>
      simp only [SimpleJsonRpcRetryPolicy.is_retryable_error] at h
      split at h
      · exact absurd h (by simp)
      split at h
      · exact absurd h (by simp)
      split at h
      · cases h
        exact Or.inl ⟨rfl, hb⟩
      split at h
      · cases h
        exact Or.inl ⟨rfl, hb⟩
      · exact absurd h (by simp)
  | BackendError e =>
      cases e with
      | HttpError s =>
          simp only [SimpleJsonRpcRetryPolicy.is_retryable_error] at h
          split at h
          · exact absurd h (by simp)
          split at h
          · exact absurd h (by simp)
          split at h
          · cases h
            exact Or.inl ⟨rfl, hb⟩
          split at h
          · cases h
            exact Or.inl ⟨rfl, hb⟩
          · exact absurd h (by simp)
      | Timeout =>
          simp only [SimpleJsonRpcRetryPolicy.is_retryable_error] at h
          split at h
          · exact absurd h (by simp)
          split at h
          · exact absurd h (by simp)
          split at h
          · cases h
            exact Or.inl ⟨rfl, hb⟩
          split at h
          · cases h
            exact Or.inl ⟨rfl, hb⟩
          · cases h
            exact Or.inr ⟨by simp_all, rfl⟩
      | TransportError s =>
          simp only [SimpleJsonRpcRetryPolicy.is_retryable_error] at h
          split at h
          · exact absurd h (by simp)
          split at h
          · exact absurd h (by simp)
          split at h
          · cases h
            exact Or.inl ⟨rfl, hb⟩
          split at h
          · cases h
            exact Or.inl ⟨rfl, hb⟩
          · cases h
            exact Or.inr ⟨by simp_all, rfl⟩
      | UnknownError s =>
          simp only [SimpleJsonRpcRetryPolicy.is_retryable_error] at h
          split at h
          · exact absurd h (by simp)
          split at h
          · exact absurd h (by simp)
          split at h
          · cases h
            exact Or.inl ⟨rfl, hb⟩
          split at h
          · cases h
            exact Or.inl ⟨rfl, hb⟩
          · cases h
            exact Or.inr ⟨by simp_all, rfl⟩
  | SerdeJson text =>
      simp only [SimpleJsonRpcRetryPolicy.is_retryable_error] at h
      split at h
      · exact absurd h (by simp)
      split at h
      · exact absurd h (by simp)
      split at h
      · cases h
        exact Or.inl ⟨rfl, hb⟩
      · split at h
        · split at h
          · cases h
            exact Or.inl ⟨rfl, hb⟩
          · exact absurd h (by simp)
        · exact absurd h (by simp)

theorem claim_C3_witness :
    ((1 : ℚ) = backoffOf defaultPolicy 1
      ∧ (1 : ℚ) ≤ defaultPolicy.max_backoff)
    ∨ (defaultPolicy.backoff_on_transport_errors = false
      ∧ (1 : ℚ) = defaultPolicy.initial_backoff) :=
  claim_C3 (fun _ => none) defaultPolicy
    (JsonRpcProviderClientError.BackendError HttpRequestError.Timeout) 1 0 1
    (by with_unfolding_all decide)

/-- Claim C4: for a `SerdeJson{text, ..}` error, once the `max_retries`
cap, the queue-size cap and the `min_retries` rule do not fire,
`is_retryable_error` reparses `text` as `{ error: JsonRpcError }` and
returns `RetryAfter(backoff)` exactly when the extracted error is
retryable, and `NoRetry` in every other case (parse failure or a
non-retryable extracted code). -/
theorem claim_C4 (parse : String → Option JsonRpcError)
    (p : SimpleJsonRpcRetryPolicy) (text : String) (nr qs : Nat)
    (hmax : ∀ m, p.max_retries = some m → nr ≤ m)
    (hq : qs ≤ p.max_retry_queue_size)
    (hmin : ∀ m, p.min_retries = some m → m < nr) :
    SimpleJsonRpcRetryPolicy.is_retryable_error parse p
        (JsonRpcProviderClientError.SerdeJson text) nr qs
      = (match parse text with
         | some e =>
             if p.is_retryable_json_rpc_error e then
               RetryAction.RetryAfter (backoffOf p nr)
             else RetryAction.NoRetry
         | none => RetryAction.NoRetry) := by
  have h1 : (match p.max_retries with
      | some mx => decide (mx < nr)
      | none => false) = false := by
    cases hm : p.max_retries with
    | none => rfl
    | some m => simpa using Nat.not_lt.mpr (hmax m hm)
  have h3 : (match p.min_retries with
      | some mn => decide (nr ≤ mn)
      | none => false) = false := by
    cases hm : p.min_retries with
    | none => rfl
    | some m => simpa using Nat.not_le.mpr (hmin m hm)
  simp only [SimpleJsonRpcRetryPolicy.is_retryable_error, h1, h3,
    Bool.false_eq_true, if_false, Nat.not_lt.mpr hq]

theorem claim_C4_witness :
    SimpleJsonRpcRetryPolicy.is_retryable_error
        (fun _ => some ⟨-32005, "m"⟩) defaultPolicy
        (JsonRpcProviderClientError.SerdeJson "body") 1 0
      = (match (fun (_ : String) => some (⟨-32005, "m"⟩ : JsonRpcError)) "body" with
         | some e =>
             if defaultPolicy.is_retryable_json_rpc_error e then
               RetryAction.RetryAfter (backoffOf defaultPolicy 1)
             else RetryAction.NoRetry
         | none => RetryAction.NoRetry) :=
  claim_C4 (fun _ => some ⟨-32005, "m"⟩) defaultPolicy "body" 1 0
    (fun m hm => by cases hm; decide) (by decide)
    (fun m hm => by cases hm; decide)

theorem requestLoop_counter {ε α : Type} (policy : ε → Nat → Nat → RetryAction)
    (l : List (AttemptOutcome α ε)) :
    ∀ nr c r cf, requestLoop policy l nr c = some (r, cf) → cf = c - 1 := by
  induction l with
  | nil => intro nr c r cf h; simp [requestLoop] at h
  | cons hd tl ih =>
      intro nr c r cf h
      cases hd with
      | ok a =>
          simp only [requestLoop] at h
          cases h
          rfl
      | fail e =>
          simp only [requestLoop] at h
          split at h
          · cases h
            rfl
          · exact ih (nr + 1) c r cf h

/-- Claim C5: for every `JsonRpcProviderClient::request` call that
completes (with `Ok` or a terminal `Err`), the `requests_enqueued` counter
is incremented once on entry and decremented once on return — on the
success path and on the `NoRetry` failure path alike — so at completion it
returns to its prior value `c0`. -/
theorem claim_C5 {ε α : Type} (policy : ε → Nat → Nat → RetryAction)
    (outcomes : List (AttemptOutcome α ε)) (c0 : Nat)
    (r : Except ε α) (cf : Nat)
    (h : clientRequest policy outcomes c0 = some (r, cf)) : cf = c0 := by
  have := requestLoop_counter policy outcomes 0 (c0 + 1) r cf h
  omega

theorem claim_C5_witness :
    clientRequest (fun _ _ _ => RetryAction.NoRetry)
        [(AttemptOutcome.fail 0 : AttemptOutcome Nat Nat)] (7 : Nat)
      = some ((Except.error 0 : Except Nat Nat), 7)
    ∧ (7 : Nat) = 7 :=
  ⟨rfl,
    claim_C5 (fun _ _ _ => RetryAction.NoRetry)
      [(AttemptOutcome.fail 0 : AttemptOutcome Nat Nat)] 7 (Except.error 0) 7 rfl⟩

theorem requestLoopCalls_one_le {ε α : Type}
    (policy : ε → Nat → Nat → RetryAction) (l : List (AttemptOutcome α ε)) :
    ∀ nr c x, x ∈ requestLoopCalls policy l nr c → nr + 1 ≤ x := by
  induction l with
  | nil => intro nr c x h; simp [requestLoopCalls] at h
  | cons hd tl ih =>
      intro nr c x h
      cases hd with
      | ok a => simp [requestLoopCalls] at h
      | fail e =>
          simp only [requestLoopCalls] at h
          rcases List.mem_cons.mp h with h1 | h2
          · omega
          · split at h2
            · simp at h2
            · have := ih (nr + 1) c x h2
              omega

/-- Claim C9: the `(num_retries - 1) as i32` computation in
`is_retryable_error` is a `u32` subtraction before the cast; under the
precondition `num_retries ≥ 1` it does not underflow and equals
`num_retries - 1`, and the client's retry loop only ever consults the
policy with `num_retries ≥ 1` (it increments the local counter before the
consultation); at `num_retries = 0` the `u32` subtraction underflows (a
panic in debug builds). -/
theorem claim_C9 :
    (∀ nr : Nat, 1 ≤ nr → nr < 2 ^ 32 →
        u32SubUnderflows nr 1 = false ∧ u32WrappingSub nr 1 = nr - 1)
    ∧ (∀ nr : Nat, 1 ≤ nr → nr < 2 ^ 31 →
        backoffExponent nr = (nr : Int) - 1)
    ∧ (∀ (ε α : Type) (policy : ε → Nat → Nat → RetryAction)
        (outcomes : List (AttemptOutcome α ε)) (c0 x : Nat),
        x ∈ clientRequestCalls policy outcomes c0 → 1 ≤ x)
    ∧ u32SubUnderflows 0 1 = true := by
  refine ⟨?_, ?_, ?_, by decide⟩
  · intro nr h1 h2
    constructor
    · simp only [u32SubUnderflows, decide_eq_false_iff_not]
      omega
    · simp only [u32WrappingSub]
      omega
  · intro nr h1 h2
    have hs : u32WrappingSub nr 1 = nr - 1 := by
      simp only [u32WrappingSub]
      omega
    simp only [backoffExponent, hs, i32OfU32]
    rw [if_pos (by omega)]
    omega
  · intro ε α policy outcomes c0 x h
    have := requestLoopCalls_one_le policy outcomes 0 (c0 + 1) x h
    omega

theorem claim_C9_witness :
    (u32SubUnderflows 3 1 = false ∧ u32WrappingSub 3 1 = 2)
    ∧ backoffExponent 3 = 2
    ∧ (1 : Nat) ≤ 1 :=
  ⟨(claim_C9.1 3 (by decide) (by norm_num)),
    claim_C9.2.1 3 (by decide) (by norm_num),
    claim_C9.2.2.1 Nat Nat (fun _ _ _ => RetryAction.NoRetry)
      [AttemptOutcome.fail 0] 0 1 (by decide)⟩

theorem lookupEntry_filter (k k' : String) (h : k ≠ k')
    (m : List (String × RequestorResponseSnapshot)) :
    lookupEntry k (m.filter fun p => p.1 ≠ k') = lookupEntry k m := by
  induction m with
  | nil => rfl
  | cons hd tl ih =>
      obtain ⟨a, b⟩ := hd
      simp only [List.filter_cons]
      split
      · simp only [lookupEntry]
        by_cases hk : k = a
        · rw [if_pos hk, if_pos hk]
        · rw [if_neg hk, if_neg hk]
          exact ih
      · rename_i hdrop
        have ha : a = k' := by simpa using hdrop
        subst ha
        simp only [lookupEntry]
        rw [if_neg h]
        exact ih

theorem lookupEntry_insertEntry (k k' : String) (v : RequestorResponseSnapshot)
    (m : List (String × RequestorResponseSnapshot)) :
    lookupEntry k (insertEntry k' v m)
      = if k = k' then some v else lookupEntry k m := by
  unfold insertEntry
  by_cases h : k = k'
  · subst h
    simp [lookupEntry]
  · simp only [lookupEntry, if_neg h]
    exact lookupEntry_filter k k' h m

theorem findByReq_eq_none (k : String) (l : List RequestorResponseSnapshot) :
    findByReq k l = none ↔ ∀ e ∈ l, e.request ≠ k := by
  induction l with
  | nil => simp [findByReq]
  | cons e t ih =>
      simp only [findByReq]
      by_cases h : e.request = k
      · simp [h]
      · simp [h, ih]

theorem findByReq_eq_some (k : String) (l : List RequestorResponseSnapshot)
    (e : RequestorResponseSnapshot) (h : findByReq k l = some e) :
    e ∈ l ∧ e.request = k := by
  induction l with
  | nil => simp [findByReq] at h
  | cons x t ih =>
      simp only [findByReq] at h
      split at h
      · cases h
        exact ⟨List.mem_cons_self _ _, by assumption⟩
      · obtain ⟨hm, hr⟩ := ih h
        exact ⟨List.mem_cons_of_mem _ hm, hr⟩

theorem findByReq_perm (k : String)
    {l l' : List RequestorResponseSnapshot} (hp : l.Perm l')
    (hnd : (requestsOf l).Nodup) :
    findByReq k l = findByReq k l' := by
  cases hf : findByReq k l with
  | none =>
      symm
      rw [findByReq_eq_none]
      intro e he
      exact (findByReq_eq_none k l).mp hf e (hp.symm.subset he)
  | some e =>
      obtain ⟨hmem, hreq⟩ := findByReq_eq_some k l e hf
      cases hf' : findByReq k l' with
      | none =>
          exact absurd hreq ((findByReq_eq_none k l').mp hf' e (hp.subset hmem))
      | some e2 =>
          obtain ⟨hmem2, hreq2⟩ := findByReq_eq_some k l' e2 hf'
          have he : e = e2 := by
            have hinj := List.inj_on_of_nodup_map (l := l)
              (f := fun e => e.request) (by simpa [requestsOf] using hnd)
            exact hinj hmem (hp.symm.subset hmem2) (hreq.trans hreq2.symm)
          rw [he]

theorem lookupEntry_insertAll (k : String)
    (l : List RequestorResponseSnapshot) :
    ∀ m, (requestsOf l).Nodup →
      lookupEntry k (insertAll l m)
        = (match findByReq k l with
           | some v => some v
           | none => lookupEntry k m) := by
  induction l with
  | nil => intro m _; rfl
  | cons e t ih =>
      intro m hnd
      obtain ⟨hne, hnd'⟩ :
          (∀ x ∈ t, ¬x.request = e.request)
            ∧ (List.map (fun e => e.request) t).Nodup := by
        simpa [requestsOf] using hnd
      have hstep : insertAll (e :: t) m = insertAll t (insertEntry e.request e m) := rfl
      rw [hstep, ih (insertEntry e.request e m) (by simpa [requestsOf] using hnd')]
      simp only [findByReq]
      by_cases hk : e.request = k
      · rw [if_pos hk]
        have hnone : findByReq k t = none := by
          rw [findByReq_eq_none]
          intro x hx hxk
          exact hne x hx (hxk.trans hk.symm)
        rw [hnone, lookupEntry_insertEntry]
        simp [hk.symm]
      · rw [if_neg hk]
        cases hf : findByReq k t with
        | some v => simp
        | none =>
            simp only
            rw [lookupEntry_insertEntry]
            rw [if_neg (fun hkk => hk (hkk.symm))]

theorem insertById_perm (e : RequestorResponseSnapshot)
    (l : List RequestorResponseSnapshot) : (insertById e l).Perm (e :: l) := by
  induction l with
  | nil => exact List.Perm.refl _
  | cons x xs ih =>
      unfold insertById
      split
      · exact List.Perm.refl _
      · exact (ih.cons x).trans (List.Perm.swap e x xs)

theorem sortById_perm (l : List RequestorResponseSnapshot) :
    (sortById l).Perm l := by
  induction l with
  | nil => exact List.Perm.refl _
  | cons x xs ih =>
      simp only [sortById, List.foldr_cons]
      exact (insertById_perm x _).trans (ih.cons x)

theorem lookupEntry_eq_findByReq
    (m : List (String × RequestorResponseSnapshot)) (hwf : WFentries m)
    (k : String) :
    lookupEntry k m = findByReq k (m.map Prod.snd) := by
  induction m with
  | nil => rfl
  | cons hd tl ih =>
      obtain ⟨a, b⟩ := hd
      obtain ⟨hnd, hreq⟩ := hwf
      have hb : b.request = a := hreq (a, b) (List.mem_cons_self _ _)
      have hwf' : WFentries tl :=
        ⟨(List.nodup_cons.mp (by simpa using hnd)).2,
          fun p hp => hreq p (List.mem_cons_of_mem _ hp)⟩
      simp only [List.map_cons, lookupEntry, findByReq, hb]
      by_cases hk : k = a
      · rw [if_pos hk, if_pos hk.symm]
      · rw [if_neg hk, if_neg (fun hh => hk hh.symm)]
        exact ih hwf'

theorem mem_map_fst_filter_ne (k : String)
    (m : List (String × RequestorResponseSnapshot)) :
    k ∉ (m.filter fun p => p.1 ≠ k).map Prod.fst := by
  intro hmem
  obtain ⟨p, hp, hpk⟩ := List.mem_map.mp hmem
  have := List.of_mem_filter hp
  simp only [decide_eq_true_eq] at this
  exact this hpk

theorem wf_insertEntry (k : String) (v : RequestorResponseSnapshot)
    (m : List (String × RequestorResponseSnapshot)) (hwf : WFentries m)
    (hvk : v.request = k) : WFentries (insertEntry k v m) := by
  constructor
  · simp only [insertEntry, List.map_cons]
    refine List.nodup_cons.mpr ⟨mem_map_fst_filter_ne k m, ?_⟩
    exact List.Nodup.sublist (List.Sublist.map Prod.fst (List.filter_sublist m)) hwf.1
  · intro p hp
    rcases List.mem_cons.mp hp with hph | hp'
    · rw [hph]
      exact hvk
    · exact hwf.2 p (List.mem_of_mem_filter hp')

theorem wf_insertAll (l : List RequestorResponseSnapshot) :
    ∀ m, WFentries m → WFentries (insertAll l m) := by
  induction l with
  | nil => intro m h; exact h
  | cons e t ih =>
      intro m h
      exact ih _ (wf_insertEntry e.request e m h rfl)

theorem wf_nil : WFentries [] := ⟨List.nodup_nil, by simp⟩

theorem save_load_lookup (m : List (String × RequestorResponseSnapshot))
    (hwf : WFentries m) (k : String) :
    lookupEntry k (insertAll (sortById (m.map Prod.snd)) []) = lookupEntry k m := by
  have hson : requestsOf (m.map Prod.snd) = m.map Prod.fst := by
    unfold requestsOf
    rw [List.map_map]
    exact List.map_congr_left fun p hp => hwf.2 p hp
  have hnd0 : (requestsOf (m.map Prod.snd)).Nodup := by
    rw [hson]
    exact hwf.1
  have hperm : (sortById (m.map Prod.snd)).Perm (m.map Prod.snd) :=
    sortById_perm _
  have hnds : (requestsOf (sortById (m.map Prod.snd))).Nodup := by
    unfold requestsOf at hnd0 ⊢
    exact (hperm.map _).symm.nodup hnd0
  rw [lookupEntry_insertAll k _ _ hnds, findByReq_perm k hperm hnds,
    ← lookupEntry_eq_findByReq m hwf k]
  cases lookupEntry k m <;> rfl

theorem foldLoad_entries (l : List RequestorResponseSnapshot) :
    ∀ st : SnapshotState, (foldLoad l st).entries = insertAll l st.entries := by
  induction l with
  | nil => intro st; rfl
  | cons e t ih =>
      intro st
      exact ih _

theorem foldLoad_flags (l : List RequestorResponseSnapshot) :
    ∀ st : SnapshotState,
      (foldLoad l st).fail_on_miss = st.fail_on_miss
      ∧ (foldLoad l st).ignore_snapshot = st.ignore_snapshot
      ∧ (foldLoad l st).aggressive_save = st.aggressive_save := by
  induction l with
  | nil => intro st; exact ⟨rfl, rfl, rfl⟩
  | cons e t ih =>
      intro st
      exact ih _

theorem try_load_some (st : SnapshotState) (l : List RequestorResponseSnapshot)
    (fom : Bool) (st' : SnapshotState) (hig : st.ignore_snapshot = false)
    (h : st.try_load (some l) fom = some st') :
    st'.entries = insertAll l []
    ∧ st'.ignore_snapshot = false
    ∧ st'.fail_on_miss = (if 0 < l.length then fom else st.fail_on_miss)
    ∧ WFentries st'.entries := by
  unfold SnapshotState.try_load at h
  rw [hig] at h
  simp only [Bool.false_eq_true, if_false] at h
  have hce : st.clear.entries = [] := rfl
  have hci : st.clear.ignore_snapshot = st.ignore_snapshot := rfl
  have hcf : st.clear.fail_on_miss = st.fail_on_miss := rfl
  split at h
  · cases h
    refine ⟨by rw [foldLoad_entries, hce], ?_, ?_, ?_⟩
    · have := (foldLoad_flags l st.clear).2.1
      simpa [hci, hig] using this
    · simp_all
    · rw [foldLoad_entries, hce]
      exact wf_insertAll l [] wf_nil
  · cases h
    refine ⟨by rw [foldLoad_entries, hce], ?_, ?_, ?_⟩
    · have := (foldLoad_flags l st.clear).2.1
      simpa [hci, hig] using this
    · have := (foldLoad_flags l st.clear).1
      simp_all
    · rw [foldLoad_entries, hce]
      exact wf_insertAll l [] wf_nil

/-- Claim C8: performing `save()` and then `try_load()` yields a cache
equal to the original in keys and values — every cached entry (its `id`,
`request` and `response` strings) survives the round-trip — and
load, save, load is a fixed point of the cache. `WFentries` captures the
invariants the source maintains on the moka cache (distinct keys, each
entry keyed by its own `request`). -/
theorem claim_C8 (st : SnapshotState) (fom : Bool) (st' : SnapshotState)
    (hig : st.ignore_snapshot = false) (hwf : WFentries st.entries)
    (hload : st.try_load st.save fom = some st') :
    (∀ k, lookupEntry k st'.entries = lookupEntry k st.entries)
    ∧ (∀ (file : List RequestorResponseSnapshot) (fom1 fom2 : Bool)
        (st1 st2 : SnapshotState),
        st.try_load (some file) fom1 = some st1 →
        st1.try_load st1.save fom2 = some st2 →
        ∀ k, lookupEntry k st2.entries = lookupEntry k st1.entries) := by
  have hsave : st.save = some (saveContents st) := by
    unfold SnapshotState.save
    rw [hig]
    rfl
  constructor
  · rw [hsave] at hload
    obtain ⟨hentries, _, _, _⟩ := try_load_some st _ fom st' hig hload
    intro k
    rw [hentries]
    exact save_load_lookup st.entries hwf k
  · intro file fom1 fom2 st1 st2 h1 h2 k
    obtain ⟨he1, hig1, _, hwf1⟩ := try_load_some st file fom1 st1 hig h1
    have hsave1 : st1.save = some (saveContents st1) := by
      unfold SnapshotState.save
      rw [hig1]
      rfl
    rw [hsave1] at h2
    obtain ⟨he2, _, _, _⟩ := try_load_some st1 _ fom2 st2 hig1 h2
    rw [he2]
    exact save_load_lookup st1.entries hwf1 k

theorem claim_C8_witness :
    ((SnapshotState.ignore_snapshot
        { next_id := 2, entries := [("a", ⟨1, "a", "r"⟩)], fail_on_miss := false,
          aggressive_save := false, ignore_snapshot := false } = false)
      ∧ WFentries [("a", (⟨1, "a", "r"⟩ : RequestorResponseSnapshot))]
      ∧ SnapshotState.try_load
          { next_id := 2, entries := [("a", ⟨1, "a", "r"⟩)], fail_on_miss := false,
            aggressive_save := false, ignore_snapshot := false }
          (SnapshotState.save
            { next_id := 2, entries := [("a", ⟨1, "a", "r"⟩)], fail_on_miss := false,
              aggressive_save := false, ignore_snapshot := false })
          true
        = some { next_id := 1, entries := [("a", ⟨1, "a", "r"⟩)], fail_on_miss := true,
                  aggressive_save := false, ignore_snapshot := false })
    ∧ lookupEntry "a"
        ({ next_id := 1, entries := [("a", ⟨1, "a", "r"⟩)], fail_on_miss := true,
            aggressive_save := false, ignore_snapshot := false } : SnapshotState).entries
        = lookupEntry "a"
          ({ next_id := 2, entries := [("a", ⟨1, "a", "r"⟩)], fail_on_miss := false,
              aggressive_save := false, ignore_snapshot := false } : SnapshotState).entries :=
  ⟨⟨rfl, by decide, by decide⟩,
    (claim_C8
      { next_id := 2, entries := [("a", ⟨1, "a", "r"⟩)], fail_on_miss := false,
        aggressive_save := false, ignore_snapshot := false } true
      { next_id := 1, entries := [("a", ⟨1, "a", "r"⟩)], fail_on_miss := true,
        aggressive_save := false, ignore_snapshot := false }
      rfl (by decide) (by decide)).1 "a"⟩

/-- Claim C7: when the serialized request key is not in the cache and
`fail_on_miss` is set, `http_post_with_snapshot` returns `HttpError(404)`
and never invokes the inner transport; and `try_load` adopts the
`fail_on_miss` argument exactly when the load succeeded with at least one
entry (otherwise the flag is left unchanged). -/
theorem claim_C7 :
    (∀ (st : SnapshotState)
        (inner : String → String → Except HttpRequestError String)
        (url request : String),
        lookupEntry request st.entries = none → st.fail_on_miss = true →
        http_post_with_snapshot st inner url request
          = (Except.error (HttpRequestError.HttpError 404), st, false))
    ∧ (∀ (st : SnapshotState) (parsed : List RequestorResponseSnapshot)
        (fom : Bool) (st' : SnapshotState),
        st.ignore_snapshot = false →
        st.try_load (some parsed) fom = some st' →
        (0 < parsed.length → st'.fail_on_miss = fom)
        ∧ (parsed.length = 0 → st'.fail_on_miss = st.fail_on_miss)) := by
  constructor
  · intro st inner url request hmiss hfom
    unfold http_post_with_snapshot
    rw [hmiss, hfom]
    rfl
  · intro st parsed fom st' hig h
    obtain ⟨_, _, hf, _⟩ := try_load_some st parsed fom st' hig h
    constructor
    · intro hlen
      rw [hf, if_pos hlen]
    · intro hlen
      rw [hf, if_neg (by omega)]

theorem claim_C7_witness :
    (lookupEntry "q"
        ({ next_id := 1, entries := [], fail_on_miss := true,
            aggressive_save := false, ignore_snapshot := false }
          : SnapshotState).entries = none
      ∧ http_post_with_snapshot
          { next_id := 1, entries := [], fail_on_miss := true,
            aggressive_save := false, ignore_snapshot := false }
          (fun _ _ => Except.ok "resp") "url" "q"
        = (Except.error (HttpRequestError.HttpError 404),
            { next_id := 1, entries := [], fail_on_miss := true,
              aggressive_save := false, ignore_snapshot := false },
            false))
    ∧ (SnapshotState.try_load initialState (some [⟨1, "a", "r"⟩]) true
        = some { next_id := 1, entries := [("a", ⟨1, "a", "r"⟩)],
                  fail_on_miss := true, aggressive_save := false,
                  ignore_snapshot := false }
      ∧ SnapshotState.fail_on_miss
          { next_id := 1, entries := [("a", ⟨1, "a", "r"⟩)],
            fail_on_miss := true, aggressive_save := false,
            ignore_snapshot := false } = true) :=
  ⟨⟨rfl,
      claim_C7.1
        { next_id := 1, entries := [], fail_on_miss := true,
          aggressive_save := false, ignore_snapshot := false }
        (fun _ _ => Except.ok "resp") "url" "q" rfl rfl⟩,
    by decide,
    (claim_C7.2 initialState [⟨1, "a", "r"⟩] true
        { next_id := 1, entries := [("a", ⟨1, "a", "r"⟩)],
          fail_on_miss := true, aggressive_save := false,
          ignore_snapshot := false }
        rfl (by decide)).1 (by decide)⟩

/-- Claim C1 (refuting theorem): `try_load` advances `next_id` only with
`fetch_max(entry.id)`, not `fetch_max(entry.id) + 1`. Loading a snapshot
whose single entry has `id = 1` leaves `next_id = 1`, violating the
claimed invariant `next_id ≥ max id + 1`, and the id allocated for the
next cache miss (`fetch_add` in `http_post_with_snapshot`) is 1 — equal
to the id already present in the loaded entries. -/
theorem claim_C1_bug :
    SnapshotState.try_load initialState (some [⟨1, "reqA", "respA"⟩]) false
      = some { next_id := 1, entries := [("reqA", ⟨1, "reqA", "respA"⟩)],
                fail_on_miss := false, aggressive_save := false,
                ignore_snapshot := false }
    ∧ (http_post_with_snapshot
        { next_id := 1, entries := [("reqA", ⟨1, "reqA", "respA"⟩)],
          fail_on_miss := false, aggressive_save := false,
          ignore_snapshot := false }
        (fun _ _ => Except.ok "respB") "url" "reqB").2.1.entries
      = [("reqB", ⟨1, "reqB", "respB"⟩), ("reqA", ⟨1, "reqA", "respA"⟩)]
    ∧ ¬(1 + 1 ≤ SnapshotState.next_id
        { next_id := 1, entries := [("reqA", ⟨1, "reqA", "respA"⟩)],
          fail_on_miss := false, aggressive_save := false,
          ignore_snapshot := false }) :=
  ⟨by decide, by decide, by decide⟩

/-- Claim C10: `http_query` (for any method) and `http_get` on a
`SnapshotRequestor` never return — both bodies are `todo!()` and panic
unconditionally; `http_post` is the only total operation of the
decorator, delegating to `http_post_with_snapshot`. -/
theorem claim_C10 :
    (∀ method url data, snapshotHttpQuery method url data = PanicOr.panics)
    ∧ (∀ url, snapshotHttpGet url = PanicOr.panics)
    ∧ (∀ st inner url request,
        snapshotHttpPost st inner url request
          = PanicOr.value (http_post_with_snapshot st inner url request)) :=
  ⟨fun _ _ _ => rfl, fun _ => rfl, fun _ _ _ _ => rfl⟩

/-- Claim C6: for every item handled by the MsgIn task, exactly one
acknowledgement is enqueued onto the internal ack channel regardless of
the `recv` outcome: on `Receive` the packet's ack is enqueued and the
data goes to the `api` sink; on `Forward` the ack is enqueued and
`(msg.peer, msg.data)` goes to the `wire_msg` sink with nothing for the
`api` sink; on error a random signed acknowledgement (from the local
keypair) is enqueued to the sending peer — and no outcome produces both a
forward and an application delivery. -/
theorem claim_C6 {κ π α β δ ε : Type} (randomAck : κ → α) (me : κ)
    (peer : π) (res : Except ε (RecvOperation δ π α β)) :
    (handleMsgIn randomAck me peer res).acks.length = 1
    ∧ (match res with
       | Except.ok (RecvOperation.Receive data ack) =>
           handleMsgIn randomAck me peer res
             = { acks := [(ack.peer, ack.ack)], wireOut := [],
                 apiOut := [data] }
       | Except.ok (RecvOperation.Forward msg ack) =>
           handleMsgIn randomAck me peer res
             = { acks := [(ack.peer, ack.ack)],
                 wireOut := [(msg.peer, msg.data)], apiOut := [] }
       | Except.error _ =>
           handleMsgIn randomAck me peer res
             = { acks := [(peer, randomAck me)], wireOut := [],
                 apiOut := [] })
    ∧ ¬((handleMsgIn randomAck me peer res).wireOut ≠ []
        ∧ (handleMsgIn randomAck me peer res).apiOut ≠ []) := by
  rcases res with e | op
  · exact ⟨rfl, rfl, by simp [handleMsgIn]⟩
  · rcases op with ⟨data, ack⟩ | ⟨msg, ack⟩
    · exact ⟨rfl, rfl, by simp [handleMsgIn]⟩
    · exact ⟨rfl, rfl, by simp [handleMsgIn]⟩
